import Mathlib

/-!
Verification of the price-calculator service (`main.go`).

The repository is a single Go file exposing three HTTP handlers over two
package-level `float64` globals, `basePrice` and `taxRate`:

* `calculatePrice` (`POST /calculate`, main.go:99-125) — reads the globals,
  computes `basePrice + basePrice*taxRate/100`, answers 200 with
  `{"total_price": ...}`; the request body is never read.
* `setBasePrice` (`POST /setBasePrice/{value}`, main.go:128-148) — parses the
  path segment with `strconv.ParseFloat(value, 64)`, assigning the result
  directly to the global `basePrice` before checking the error; on error it
  answers 400 with plain text, otherwise 200 with `{"message":"Base price set"}`.
* `setTaxRate` (`POST /setTaxRate/{value}`, main.go:151-171) — same shape for
  `taxRate`.

Embedding choices:

* Go `float64` values are modelled by `GoFloat`: an exact rational for finite
  values, plus the IEEE-754 special values `±Inf` and `NaN`.  Arithmetic on
  finite values is exact (no rounding is modelled); the special-value rules
  (`NaN` absorption, `Inf ± Inf`, `Inf * 0`, division by zero) follow IEEE 754.
  Signed zero is not modelled.  None of the properties below depends on
  rounding of finite results.
* `strconv.ParseFloat(s, 64)` is modelled by `parseFloat` following its
  documented grammar: optional sign; the special strings `Inf` / `Infinity`
  (case-insensitive, signed) and `NaN` (case-insensitive, unsigned); decimal
  mantissas with optional fraction and `e`-exponent; hexadecimal mantissas
  with a mandatory `p`-exponent.  On a syntax error it returns `0` together
  with an error, as Go does; a finite value whose magnitude exceeds the
  largest finite float64 yields `±Inf` together with a range error.
  Digit-separating underscores and rounding at the overflow boundary are not
  modelled; the gradual-underflow range error is not modelled.  These corners
  are not touched by any property below.
* Each handler becomes a pure function from the request data and the current
  global state to the new state and a response value: the handler's status
  code together with the structured value it hands to the response writer
  (`Body.jsonMsg`, `Body.jsonTotal`, `Body.plainText`).  Tracing and the
  artificial 100ms sleep have no effect on state or response and are omitted.
* Serialization of that response value to the wire is modelled by
  `HResp.wire`: Go's `encoding/json` rejects the non-finite floats NaN and
  ±Inf (`json.UnsupportedValueError`), and each handler has already written
  its status header when `Encode` runs, so on an encode failure the error
  branch (main.go:119-123) leaves the committed status in place and the
  client reads the plain-text `Internal server error` body instead of a
  JSON total.
-/

namespace PriceCalc

/-- Sign of an IEEE special value. -/
inductive FSign where
  | pos
  | neg
deriving DecidableEq

/-- Product of signs. -/
def FSign.mul : FSign → FSign → FSign
  | .pos, s => s
  | .neg, .pos => .neg
  | .neg, .neg => .pos

/-- Model of a Go `float64` value: exact rational if finite, or a special
IEEE value.  Finite arithmetic is exact (rounding is not modelled). -/
inductive GoFloat where
  | fin (q : ℚ)
  | inf (s : FSign)
  | nan
deriving DecidableEq

/-- Sign of a finite rational, for special-value arithmetic (zero counts as
positive; signed zero is not modelled). -/
def qsign (q : ℚ) : FSign := if q < 0 then .neg else .pos

/-- IEEE-style addition on the model (exact on finite values). -/
def GoFloat.add : GoFloat → GoFloat → GoFloat
  | .nan, _ => .nan
  | _, .nan => .nan
  | .inf s, .inf t => if s = t then .inf s else .nan
  | .inf s, .fin _ => .inf s
  | .fin _, .inf t => .inf t
  | .fin a, .fin b => .fin (a + b)

/-- IEEE-style multiplication on the model (exact on finite values). -/
def GoFloat.mul : GoFloat → GoFloat → GoFloat
  | .nan, _ => .nan
  | _, .nan => .nan
  | .inf s, .inf t => .inf (s.mul t)
  | .inf s, .fin b => if b = 0 then .nan else .inf (s.mul (qsign b))
  | .fin a, .inf t => if a = 0 then .nan else .inf ((qsign a).mul t)
  | .fin a, .fin b => .fin (a * b)

/-- IEEE-style division on the model (exact on finite values; the only
divisor used by the program is the literal `100`). -/
def GoFloat.div : GoFloat → GoFloat → GoFloat
  | .nan, _ => .nan
  | _, .nan => .nan
  | .inf _, .inf _ => .nan
  | .inf s, .fin b => .inf (s.mul (qsign b))
  | .fin _, .inf _ => .fin 0
  | .fin a, .fin b =>
      if b = 0 then (if a = 0 then .nan else .inf (qsign a)) else .fin (a / b)

instance : Add GoFloat := ⟨GoFloat.add⟩
instance : Mul GoFloat := ⟨GoFloat.mul⟩
instance : Div GoFloat := ⟨GoFloat.div⟩

/-! ## Model of `strconv.ParseFloat(s, 64)` -/

/-- The two error kinds of `strconv.ParseFloat`: `ErrSyntax` and `ErrRange`. -/
inductive PErr where
  | invalid
  | outOfRange
deriving DecidableEq

/-- Value of a list of decimal digit characters. -/
def digitsVal (l : List Char) : ℕ :=
  l.foldl (fun a c => a * 10 + (c.toNat - 48)) 0

/-- Hexadecimal value of one digit character. -/
def hexVal (c : Char) : ℕ :=
  if c.isDigit then c.toNat - 48
  else if 'a' ≤ c ∧ c ≤ 'f' then c.toNat - 87
  else if 'A' ≤ c ∧ c ≤ 'F' then c.toNat - 55
  else 0

/-- Is `c` a hexadecimal digit? -/
def isHexChar (c : Char) : Bool :=
  c.isDigit || (decide ('a' ≤ c) && decide (c ≤ 'f'))
    || (decide ('A' ≤ c) && decide (c ≤ 'F'))

/-- Value of a list of hexadecimal digit characters. -/
def hexDigitsVal (l : List Char) : ℕ :=
  l.foldl (fun a c => a * 16 + hexVal c) 0

/-- Strip an optional leading sign; returns (isNegative, rest). -/
def parseSign : List Char → Bool × List Char
  | '+' :: r => (false, r)
  | '-' :: r => (true, r)
  | r => (false, r)

/-- Parse an exponent suffix (after the `e`/`E`/`p`/`P` marker): an optional
sign followed by at least one decimal digit, consuming the whole input. -/
def parseExpPart (l : List Char) : Option ℤ :=
  let p := parseSign l
  let d := p.2.span Char.isDigit
  if d.1.isEmpty ∨ ¬ d.2.isEmpty then none
  else some (if p.1 then -(digitsVal d.1 : ℤ) else (digitsVal d.1 : ℤ))

/-- Parse a decimal mantissa `digits [. digits]` (at least one digit in
total); returns (digit value, number of fractional digits, rest). -/
def parseDecMant (l : List Char) : Option (ℕ × ℕ × List Char) :=
  let d1 := l.span Char.isDigit
  match d1.2 with
  | '.' :: r2 =>
      let d2 := r2.span Char.isDigit
      if d1.1.isEmpty ∧ d2.1.isEmpty then none
      else some (digitsVal (d1.1 ++ d2.1), d2.1.length, d2.2)
  | _ => if d1.1.isEmpty then none else some (digitsVal d1.1, 0, d1.2)

/-- Parse a full decimal number `mantissa [e exponent]`; returns
(digit value, fractional digits, decimal exponent). -/
def parseDecNum (l : List Char) : Option (ℕ × ℕ × ℤ) :=
  match parseDecMant l with
  | none => none
  | some (m, f, rest) =>
      match rest with
      | [] => some (m, f, 0)
      | c :: r =>
          if c = 'e' ∨ c = 'E' then (parseExpPart r).map (fun e => (m, f, e))
          else none

/-- Parse a hexadecimal mantissa plus its mandatory binary exponent (the part
after `0x`): `hexdigits [. hexdigits] p exponent`; returns (digit value,
fractional hex digits, binary exponent). -/
def parseHexNum (l : List Char) : Option (ℕ × ℕ × ℤ) :=
  let d1 := l.span isHexChar
  let rest :=
    match d1.2 with
    | '.' :: r2 =>
        let d2 := r2.span isHexChar
        if d1.1.isEmpty ∧ d2.1.isEmpty then none
        else some (hexDigitsVal (d1.1 ++ d2.1), d2.1.length, d2.2)
    | _ => if d1.1.isEmpty then none else some (hexDigitsVal d1.1, 0, d1.2)
  match rest with
  | none => none
  | some (m, f, r) =>
      match r with
      | c :: r2 =>
          if c = 'p' ∨ c = 'P' then (parseExpPart r2).map (fun e => (m, f, e))
          else none
      | [] => none

/-- `(b : ℚ) ^ (e : ℤ)`, written out over `Nat.pow` so that it evaluates by
kernel reduction. -/
def qpow (b : ℕ) (e : ℤ) : ℚ :=
  match e with
  | .ofNat n => ((b ^ n : ℕ) : ℚ)
  | .negSucc n => 1 / ((b ^ (n + 1) : ℕ) : ℚ)

/-- Exact value of a parsed decimal number. -/
def decValue (m f : ℕ) (e : ℤ) : ℚ := (m : ℚ) * qpow 10 (e - (f : ℤ))

/-- Exact value of a parsed hexadecimal number. -/
def hexValue (m f : ℕ) (e : ℤ) : ℚ :=
  (m : ℚ) * qpow 16 (-(f : ℤ)) * qpow 2 e

/-- The largest finite float64, `(2 - 2^-52) * 2^1023`, as an exact rational. -/
def maxF64 : ℚ := ((2 ^ 1024 : ℕ) : ℚ) - ((2 ^ 971 : ℕ) : ℚ)

/-- Apply the sign and the float64 range check: magnitudes beyond the largest
finite float64 become `±Inf` with `ErrRange`, as `strconv.ParseFloat` does. -/
def finishParse (neg : Bool) (v : ℚ) : GoFloat × Option PErr :=
  let v := if neg then -v else v
  if v > maxF64 then (.inf .pos, some .outOfRange)
  else if v < -maxF64 then (.inf .neg, some .outOfRange)
  else (.fin v, none)

/-- Parse the numeric (non-special) part, after the sign has been stripped:
hexadecimal if it starts with `0x`/`0X`, decimal otherwise. -/
def parseNum (r : List Char) : Option ℚ :=
  match r with
  | '0' :: c :: rest =>
      if c = 'x' ∨ c = 'X' then
        (parseHexNum rest).map (fun t => hexValue t.1 t.2.1 t.2.2)
      else (parseDecNum r).map (fun t => decValue t.1 t.2.1 t.2.2)
  | _ => (parseDecNum r).map (fun t => decValue t.1 t.2.1 t.2.2)

/-- Case-fold a character list. -/
def lowerStr (l : List Char) : List Char := l.map Char.toLower

/-- Model of Go `strconv.ParseFloat(s, 64)`: returns the value together with
an optional error.  Mirrors Go's convention that a value is returned even on
error: `0` on a syntax error, `±Inf` on overflow. -/
def parseFloat (s : String) : GoFloat × Option PErr :=
  let l := s.data
  if lowerStr l = ['n', 'a', 'n'] then (.nan, none)
  else
    let p := parseSign l
    if lowerStr p.2 = ['i', 'n', 'f'] ∨
        lowerStr p.2 = ['i', 'n', 'f', 'i', 'n', 'i', 't', 'y'] then
      (.inf (if p.1 then .neg else .pos), none)
    else
      match parseNum p.2 with
      | some v => finishParse p.1 v
      | none => (.fin 0, some .invalid)

/-! ## The server state and the three handlers -/

/-- The two package-level globals of main.go (lines 23-24), zero-valued at
process start. -/
structure Config where
  basePrice : GoFloat
  taxRate : GoFloat
deriving DecidableEq

/-- Initial state: Go zero-values the globals. -/
def Config.init : Config := ⟨.fin 0, .fin 0⟩

/-- The `PriceRequest` struct (main.go:28-31), built by `calculatePrice` from
the current globals. -/
structure PriceRequest where
  basePrice : GoFloat
  taxRate : GoFloat

/-- HTTP status codes written by the handlers. -/
inductive Status where
  | ok200
  | badRequest400
deriving DecidableEq

/-- The structured value a handler hands to the response writer, before JSON
serialization: the string map `{"message": m}` the setters encode, the
plain-text body written by `http.Error`, or the `PriceResponse` struct
`{"total_price": t}` (main.go:34-36) that `calculatePrice` encodes. -/
inductive Body where
  | jsonMsg (message : String)
  | plainText (text : String)
  | jsonTotal (totalPrice : GoFloat)
deriving DecidableEq

/-- A handler's response: the status it writes and the body value it hands to
the response writer.  What the client actually reads is `HResp.wire` of this,
which accounts for JSON-encoding failure. -/
structure HResp where
  status : Status
  body : Body
deriving DecidableEq

/-- Does Go's `encoding/json` accept this float value?  `json.Marshal`
returns an `UnsupportedValueError` for NaN and ±Inf. -/
def GoFloat.jsonEncodable : GoFloat → Bool
  | .fin _ => true
  | .inf _ => false
  | .nan => false

/-- Does Go's json encoder accept this body value?  The setters' string-map
confirmation always encodes, plain text is written directly by `http.Error`
without json, and a `PriceResponse` encodes exactly when its total is
finite. -/
def Body.encodes : Body → Bool
  | .jsonMsg _ => true
  | .plainText _ => true
  | .jsonTotal t => t.jsonEncodable

/-- The response as the client reads it on the wire.  Each handler writes its
status header before `json.NewEncoder(w).Encode` runs (main.go:115 for
`calculatePrice`, main.go:141/164 for the setters), so when encoding fails —
which happens exactly for a non-finite total — the error branch
(main.go:119-123 and its setter counterparts) cannot replace the committed
status: `http.Error`'s 500 is a superfluous header write, and the client sees
the original status with the plain-text "Internal server error" body. -/
def HResp.wire (r : HResp) : HResp :=
  if r.body.encodes then r
  else ⟨r.status, .plainText "Internal server error"⟩

/-- The price formula exactly as computed inline at main.go:113:
`request.BasePrice + (request.BasePrice * request.TaxRate / 100)`. -/
def computeTotal (basePrice taxRate : GoFloat) : GoFloat :=
  basePrice + (basePrice * taxRate / .fin 100)

/-- Embedding of `calculatePrice` (main.go:99-125), up to serialization: the
handler never reads the request body; it builds a `PriceRequest` from the
globals, sleeps 100ms (no state effect), computes the total, writes the 200
header and hands the `PriceResponse` to the json encoder.  The result here is
that pre-serialization response value; what the client reads is its
`HResp.wire`, where the encode-failure branch (main.go:119-123) fires for a
non-finite total. -/
def calculatePrice (requestBody : String) (st : Config) : Config × HResp :=
  let request : PriceRequest := ⟨st.basePrice, st.taxRate⟩
  let totalPrice := request.basePrice + (request.basePrice * request.taxRate / .fin 100)
  (st, ⟨.ok200, .jsonTotal totalPrice⟩)

/-- Embedding of `setBasePrice` (main.go:128-148).  Note: the Go code assigns
the result of `strconv.ParseFloat` to the global `basePrice` (main.go:133)
before checking the error, so the global is overwritten with ParseFloat's
returned value even when parsing fails and the handler answers 400. -/
def setBasePrice (value : String) (st : Config) : Config × HResp :=
  match parseFloat value with
  | (v, some _) =>
      ({ st with basePrice := v }, ⟨.badRequest400, .plainText "Invalid base price"⟩)
  | (v, none) =>
      ({ st with basePrice := v }, ⟨.ok200, .jsonMsg "Base price set"⟩)

/-- Embedding of `setTaxRate` (main.go:151-171), the same shape as
`setBasePrice` targeting the `taxRate` global (assigned at main.go:156 before
the error check). -/
def setTaxRate (value : String) (st : Config) : Config × HResp :=
  match parseFloat value with
  | (v, some _) =>
      ({ st with taxRate := v }, ⟨.badRequest400, .plainText "Invalid tax rate"⟩)
  | (v, none) =>
      ({ st with taxRate := v }, ⟨.ok200, .jsonMsg "Tax rate set"⟩)

/-! ## Arithmetic helper lemmas -/

/-- Addition of finite model floats is exact rational addition. -/
theorem fin_add (a b : ℚ) : GoFloat.fin a + GoFloat.fin b = .fin (a + b) := rfl

/-- Multiplication of finite model floats is exact rational multiplication. -/
theorem fin_mul (a b : ℚ) : GoFloat.fin a * GoFloat.fin b = .fin (a * b) := rfl

/-- Division of finite model floats by a nonzero finite float is exact
rational division. -/
theorem fin_div_ne (a b : ℚ) (h : b ≠ 0) :
    GoFloat.fin a / GoFloat.fin b = .fin (a / b) := by
  show GoFloat.div _ _ = _
  simp [GoFloat.div, h]

/-! ## Claim theorems -/

set_option maxRecDepth 100000 in
/-- C1: the spec claims that for a non-numeric path segment the setter
answers 400 Bad Request and leaves the stored value unchanged.  The 400 part
holds, but the code assigns `strconv.ParseFloat`'s result to the global
before checking the error (main.go:133 and main.go:156): from stored state
(base price 100, tax rate 7), `POST /setBasePrice/abc` answers 400 yet resets
the stored base price to 0, and `POST /setTaxRate/abc` answers 400 yet resets
the stored tax rate to 0. -/
theorem setBasePrice_400_clobbers_state :
    (setBasePrice "abc" ⟨.fin 100, .fin 7⟩).2.status = .badRequest400 ∧
    (setBasePrice "abc" ⟨.fin 100, .fin 7⟩).1.basePrice = .fin 0 ∧
    (setTaxRate "abc" ⟨.fin 100, .fin 7⟩).2.status = .badRequest400 ∧
    (setTaxRate "abc" ⟨.fin 100, .fin 7⟩).1.taxRate = .fin 0 := by
  with_unfolding_all decide

/-- C3: `calculatePrice` answers, for every request body and stored
configuration, exactly `computeTotal base_price tax_rate` with the state
unchanged; and on finite values `computeTotal` is exactly the rational
`base_price + base_price * tax_rate / 100`, with no rounding or clamping —
a pure deterministic function of the two stored values. -/
theorem calculatePrice_formula :
    (∀ (body : String) (st : Config),
        calculatePrice body st
          = (st, ⟨.ok200, .jsonTotal (computeTotal st.basePrice st.taxRate)⟩)) ∧
    (∀ b t : ℚ, computeTotal (.fin b) (.fin t) = .fin (b + b * t / 100)) := by
  refine ⟨fun body st => rfl, fun b t => ?_⟩
  unfold computeTotal
  rw [fin_mul, fin_div_ne _ _ (by norm_num), fin_add]

set_option maxRecDepth 100000 in
/-- C4: for every path segment that parses to `v`, `POST /setBasePrice/v`
followed by `POST /calculate` yields `total_price = v + v * tax_rate / 100`
where `tax_rate` is the currently stored one; and the concrete scenario from
the default state — set base price 100, set tax rate 20, calculate — answers
200 with `{"total_price": 120}`. -/
theorem setBasePrice_then_calculate (s : String) (v : GoFloat) (st : Config)
    (h : parseFloat s = (v, none)) :
    (calculatePrice "" (setBasePrice s st).1).2.body
      = .jsonTotal (v + (v * st.taxRate / .fin 100)) ∧
    (calculatePrice "" (setTaxRate "20" (setBasePrice "100" Config.init).1).1).2
      = ⟨.ok200, .jsonTotal (.fin 120)⟩ := by
  constructor
  · simp [setBasePrice, h, calculatePrice]
  · with_unfolding_all decide

set_option maxRecDepth 100000 in
/-- Witness for C4: at segment "7" from the default state, the parse succeeds
and the computed total is `7 + 7 * 0 / 100`. -/
theorem setBasePrice_then_calculate_witness :
    parseFloat "7" = (.fin 7, none) ∧
    (calculatePrice "" (setBasePrice "7" Config.init).1).2.body
      = .jsonTotal (.fin 7 + (.fin 7 * Config.init.taxRate / .fin 100)) :=
  ⟨by with_unfolding_all decide, (setBasePrice_then_calculate "7" (.fin 7) Config.init (by with_unfolding_all decide)).1⟩

/-- C5: two `POST /calculate` requests that differ only in their request body
get, from the same stored configuration, identical responses (and identical
resulting state): the handler never reads the body. -/
theorem calculatePrice_ignores_body (b1 b2 : String) (st : Config) :
    calculatePrice b1 st = calculatePrice b2 st := rfl

/-- C6: for every path segment that parses to `v`, `POST /setBasePrice/{v}`
stores `v` as the base price and answers 200 with `{"message": "Base price
set"}`, and `POST /setTaxRate/{v}` stores `v` as the tax rate and answers 200
with `{"message": "Tax rate set"}`. -/
theorem setters_success (s : String) (v : GoFloat) (st : Config)
    (h : parseFloat s = (v, none)) :
    setBasePrice s st
      = ({ st with basePrice := v }, ⟨.ok200, .jsonMsg "Base price set"⟩) ∧
    setTaxRate s st
      = ({ st with taxRate := v }, ⟨.ok200, .jsonMsg "Tax rate set"⟩) := by
  constructor <;> simp [setBasePrice, setTaxRate, h]

set_option maxRecDepth 100000 in
/-- Witness for C6: the segment "2.5" parses to 5/2 and both setters store it
with the success response. -/
theorem setters_success_witness :
    parseFloat "2.5" = (.fin (5 / 2), none) ∧
    setBasePrice "2.5" Config.init
      = (⟨.fin (5 / 2), .fin 0⟩, ⟨.ok200, .jsonMsg "Base price set"⟩) ∧
    setTaxRate "2.5" Config.init
      = (⟨.fin 0, .fin (5 / 2)⟩, ⟨.ok200, .jsonMsg "Tax rate set"⟩) :=
  ⟨by with_unfolding_all decide,
   (setters_success "2.5" (.fin (5 / 2)) Config.init (by with_unfolding_all decide)).1,
   (setters_success "2.5" (.fin (5 / 2)) Config.init (by with_unfolding_all decide)).2⟩

/-- C7: for every request (successful or failed) and every starting
configuration, `setBasePrice` never modifies the stored tax rate and
`setTaxRate` never modifies the stored base price. -/
theorem setters_frame (s : String) (st : Config) :
    (setBasePrice s st).1.taxRate = st.taxRate ∧
    (setTaxRate s st).1.basePrice = st.basePrice := by
  rcases h : parseFloat s with ⟨v, _ | e⟩ <;> simp [setBasePrice, setTaxRate, h]

/-- C8: invoking the same setter with the same path segment twice in a row
yields the same stored configuration as invoking it once, from every starting
configuration (idempotence; it holds on the failure path as well, where both
invocations store ParseFloat's returned value). -/
theorem setters_idempotent (s : String) (st : Config) :
    (setBasePrice s (setBasePrice s st).1).1 = (setBasePrice s st).1 ∧
    (setTaxRate s (setTaxRate s st).1).1 = (setTaxRate s st).1 := by
  rcases h : parseFloat s with ⟨v, _ | e⟩ <;> simp [setBasePrice, setTaxRate, h]

set_option maxRecDepth 100000 in
/-- C9: on a parse failure the setters assign `strconv.ParseFloat`'s returned
value to the stored global before answering 400, so a rejected request
overwrites the previously stored value; ParseFloat returns 0 for a
syntactically invalid segment ("abc") and ±Inf for an out-of-range one
("1e309", "-1e309"). -/
theorem setters_overwrite_on_failure :
    (∀ (s : String) (v : GoFloat) (e : PErr) (st : Config),
        parseFloat s = (v, some e) →
        setBasePrice s st
            = ({ st with basePrice := v },
               ⟨.badRequest400, .plainText "Invalid base price"⟩) ∧
        setTaxRate s st
            = ({ st with taxRate := v },
               ⟨.badRequest400, .plainText "Invalid tax rate"⟩)) ∧
    parseFloat "abc" = (.fin 0, some .invalid) ∧
    parseFloat "1e309" = (.inf .pos, some .outOfRange) ∧
    parseFloat "-1e309" = (.inf .neg, some .outOfRange) := by
  refine ⟨fun s v e st h => ?_, by with_unfolding_all decide, by with_unfolding_all decide, by with_unfolding_all decide⟩
  constructor <;> simp [setBasePrice, setTaxRate, h]

set_option maxRecDepth 100000 in
/-- Witness for C9: at segment "abc" from stored state (7, 3), the parse
fails with a syntax error and the base price is overwritten with 0. -/
theorem setters_overwrite_on_failure_witness :
    parseFloat "abc" = (.fin 0, some .invalid) ∧
    setBasePrice "abc" ⟨.fin 7, .fin 3⟩
      = (⟨.fin 0, .fin 3⟩, ⟨.badRequest400, .plainText "Invalid base price"⟩) :=
  ⟨by with_unfolding_all decide,
   (setters_overwrite_on_failure.1 "abc" (.fin 0) .invalid ⟨.fin 7, .fin 3⟩
      (by with_unfolding_all decide)).1⟩

set_option maxRecDepth 100000 in
/-- C10 counterexample: the claim's conclusion — that after storing a
non-finite value a subsequent `POST /calculate` can return a NaN or infinite
total_price — is false of the program.  `POST /setBasePrice/NaN` does answer
200, but the following `POST /calculate` puts on the wire the already
committed 200 status with the plain-text "Internal server error" body
(encoding/json rejects NaN at main.go:119), not a JSON total; likewise after
storing Inf (with tax rate 20, so the computed total is +Inf). -/
theorem nonfinite_total_never_reaches_client :
    (setBasePrice "NaN" Config.init).2.status = .ok200 ∧
    ((calculatePrice "" (setBasePrice "NaN" Config.init).1).2).wire
        = ⟨.ok200, .plainText "Internal server error"⟩ ∧
    ((calculatePrice "" (setBasePrice "NaN" Config.init).1).2).wire.body
        ≠ .jsonTotal .nan ∧
    ((calculatePrice "" (setTaxRate "20" (setBasePrice "Inf" Config.init).1).1).2).wire
        = ⟨.ok200, .plainText "Internal server error"⟩ := by
  with_unfolding_all decide

set_option maxRecDepth 100000 in
/-- C10 (amended): the setters accept every form `strconv.ParseFloat`
accepts, including "NaN", "Inf", "-Inf", hexadecimal ("0x1p4" = 16) and
exponent ("1e3" = 1000) notation: such a request answers 200 and stores the
value with no range or finiteness validation, and a subsequent
`POST /calculate` then computes a NaN or infinite total internally — but the
client never receives that total: encoding/json rejects non-finite floats, so
the wire response is the committed 200 status with the plain-text
"Internal server error" body in place of a total_price. -/
theorem setters_accept_nonfinite_amended :
    setBasePrice "NaN" Config.init
        = (⟨.nan, .fin 0⟩, ⟨.ok200, .jsonMsg "Base price set"⟩) ∧
    ((setBasePrice "NaN" Config.init).2).wire
        = ⟨.ok200, .jsonMsg "Base price set"⟩ ∧
    setBasePrice "Inf" Config.init
        = (⟨.inf .pos, .fin 0⟩, ⟨.ok200, .jsonMsg "Base price set"⟩) ∧
    setTaxRate "-Inf" Config.init
        = (⟨.fin 0, .inf .neg⟩, ⟨.ok200, .jsonMsg "Tax rate set"⟩) ∧
    setBasePrice "0x1p4" Config.init
        = (⟨.fin 16, .fin 0⟩, ⟨.ok200, .jsonMsg "Base price set"⟩) ∧
    setBasePrice "1e3" Config.init
        = (⟨.fin 1000, .fin 0⟩, ⟨.ok200, .jsonMsg "Base price set"⟩) ∧
    computeTotal .nan (.fin 0) = .nan ∧
    computeTotal (.inf .pos) (.fin 20) = .inf .pos ∧
    (calculatePrice "" (setBasePrice "NaN" Config.init).1).2.body
        = .jsonTotal .nan ∧
    ((calculatePrice "" (setBasePrice "NaN" Config.init).1).2).wire
        = ⟨.ok200, .plainText "Internal server error"⟩ ∧
    ((calculatePrice "" (setTaxRate "20" (setBasePrice "Inf" Config.init).1).1).2).wire
        = ⟨.ok200, .plainText "Internal server error"⟩ := by
  with_unfolding_all decide

end PriceCalc
